import Mathlib

/-!
# Verification of the hppt HTTP server against its specification

A shallow embedding of the hppt sources (`request.rs`, `response.rs`,
`files.rs`, `server.rs`, `error.rs`) in Lean 4, together with theorems
settling the specification claims.

Bytes are modelled as natural numbers (values below 256); byte strings as
`List Nat`.  ASCII literals are written with the `ascii` helper, whose
output coincides with the UTF-8 bytes for ASCII-only strings.

Note on the sources: the checked-out files come from different design
iterations of the same program and disagree in places (for example
`error.rs` declares fewer error variants than `request.rs` and `server.rs`
reference, and `server.rs` constructs responses with a fourth "body already
contains its own headers" flag that `response.rs` does not have).  Each
definition below names the file and function it is translated from; the
few places where a referenced piece of code is absent from the sources are
modelled from the spec and marked as such.
-/

namespace Hppt

/-- Bytes of an ASCII string (equal to its UTF-8 bytes for ASCII input). -/
def ascii (s : String) : List Nat := s.toList.map Char.toNat

/-- `slice::split` from Rust, specialised to splitting a byte list at a
separator byte: `n` separators yield `n + 1` (possibly empty) segments. -/
def splitOn (sep : Nat) : List Nat → List (List Nat)
  | [] => [[]]
  | b :: rest =>
    if b = sep then [] :: splitOn sep rest
    else
      match splitOn sep rest with
      | [] => [[b]]
      | s :: ss => (b :: s) :: ss

theorem splitOn_ne_nil (sep : Nat) (l : List Nat) : splitOn sep l ≠ [] := by
  induction l with
  | nil => simp [splitOn]
  | cons b rest ih =>
    simp only [splitOn]
    split
    · simp
    · split
      · simp
      · simp

theorem splitOn_sep_free (sep : Nat) (l : List Nat) (h : ∀ b ∈ l, b ≠ sep) :
    splitOn sep l = [l] := by
  induction l with
  | nil => rfl
  | cons b rest ih =>
    have hb : b ≠ sep := h b (List.mem_cons_self b rest)
    have hrest : ∀ x ∈ rest, x ≠ sep := fun x hx => h x (List.mem_cons_of_mem b hx)
    simp only [splitOn, if_neg hb, ih hrest]

theorem splitOn_append (sep : Nat) (x y : List Nat) (h : ∀ b ∈ x, b ≠ sep) :
    splitOn sep (x ++ sep :: y) = x :: splitOn sep y := by
  induction x with
  | nil => simp [splitOn]
  | cons b rest ih =>
    have hb : b ≠ sep := h b (List.mem_cons_self b rest)
    have hrest : ∀ c ∈ rest, c ≠ sep := fun c hc => h c (List.mem_cons_of_mem b hc)
    simp only [List.cons_append, splitOn, if_neg hb, List.append_eq, ih hrest]

/-- The error taxonomy.  `error.rs` declares `Parsing`, `IncompleteRequest`,
`UnsupportedHttpVersion` and `IoError`; the `request.rs` and `server.rs`
iterations additionally reference `RequestTooLarge` and `BadRequest`, so the
embedded enumeration is the union of the variants the sources use.  The
`io::Error` payload of `IoError` is not modelled. -/
inductive HpptError where
  | Parsing
  | IncompleteRequest
  | UnsupportedHttpVersion
  | IoError
  | RequestTooLarge
  | BadRequest
deriving DecidableEq, Repr

/-- `request.rs`: the `Method` enumeration. -/
inductive Method where
  | Options | Get | Head | Post | Put | Delete | Trace | Connect
deriving DecidableEq, Repr

/-- `request.rs`: `Method::from_bytes` — exact match against the eight
method literals, anything else is a `Parsing` error. -/
def Method.from_bytes (m : List Nat) : Except HpptError Method :=
  if m = ascii "OPTIONS" then .ok .Options
  else if m = ascii "GET" then .ok .Get
  else if m = ascii "HEAD" then .ok .Head
  else if m = ascii "POST" then .ok .Post
  else if m = ascii "PUT" then .ok .Put
  else if m = ascii "DELETE" then .ok .Delete
  else if m = ascii "TRACE" then .ok .Trace
  else if m = ascii "CONNECT" then .ok .Connect
  else .error .Parsing

/-- `request.rs`: `Method::as_bytes`. -/
def Method.as_bytes : Method → List Nat
  | .Options => ascii "OPTIONS"
  | .Get => ascii "GET"
  | .Head => ascii "HEAD"
  | .Post => ascii "POST"
  | .Put => ascii "PUT"
  | .Delete => ascii "DELETE"
  | .Trace => ascii "TRACE"
  | .Connect => ascii "CONNECT"

/-- `request.rs`: the `Version` enumeration — only HTTP/1.1. -/
inductive Version where
  | OneDotOne
deriving DecidableEq, Repr

/-- `request.rs`: `Version::from_bytes` — exact match against the literal
`HTTP/1.1`; any other token is `UnsupportedHttpVersion`. -/
def Version.from_bytes (v : List Nat) : Except HpptError Version :=
  if v = ascii "HTTP/1.1" then .ok .OneDotOne
  else .error .UnsupportedHttpVersion

/-- A UTF-8 continuation byte. -/
def contByte (b : Nat) : Bool := 128 ≤ b && b < 192

/-- Well-formed UTF-8, as validated by Rust's `str::from_utf8`: 1–4 byte
sequences, overlong encodings and surrogates rejected. -/
def validUtf8 : List Nat → Bool
  | [] => true
  | b :: rest =>
    if b < 128 then validUtf8 rest
    else if 194 ≤ b && b ≤ 223 then
      match rest with
      | c1 :: r => contByte c1 && validUtf8 r
      | [] => false
    else if b = 224 then
      match rest with
      | c1 :: c2 :: r => (160 ≤ c1 && c1 < 192) && contByte c2 && validUtf8 r
      | _ => false
    else if (225 ≤ b && b ≤ 236) || b = 238 || b = 239 then
      match rest with
      | c1 :: c2 :: r => contByte c1 && contByte c2 && validUtf8 r
      | _ => false
    else if b = 237 then
      match rest with
      | c1 :: c2 :: r => (128 ≤ c1 && c1 < 160) && contByte c2 && validUtf8 r
      | _ => false
    else if b = 240 then
      match rest with
      | c1 :: c2 :: c3 :: r =>
        (144 ≤ c1 && c1 < 192) && contByte c2 && contByte c3 && validUtf8 r
      | _ => false
    else if 241 ≤ b && b ≤ 243 then
      match rest with
      | c1 :: c2 :: c3 :: r => contByte c1 && contByte c2 && contByte c3 && validUtf8 r
      | _ => false
    else if b = 244 then
      match rest with
      | c1 :: c2 :: c3 :: r =>
        (128 ≤ c1 && c1 < 144) && contByte c2 && contByte c3 && validUtf8 r
      | _ => false
    else false

/-- `request.rs` `from_bytes`, the line-trimming closure passed to `map`:
a non-empty segment ending in `\r` (13) loses that byte; empty segments are
returned unchanged. -/
def trim1 (l : List Nat) : List Nat :=
  if l = [] then l
  else if l.getLast? = some 13 then l.dropLast
  else l

/-- `request.rs` `from_bytes`, the `body_start` side effect of the same
closure: each consumed non-empty segment adds its raw length plus one (for
the stripped `\n`); an empty segment adds nothing — even when it, too, was
terminated by a `\n`. -/
def contrib (l : List Nat) : Nat :=
  if l = [] then 0 else l.length + 1

/-- `request.rs` `from_bytes`: `lines.take_while(|l| l.len() > 0)` driven by
`collect`, together with the `body_start` bytes it consumes.  The stopping
empty line is consumed from the iterator (contributing its `contrib`) but is
not part of the header list.  Header lines are kept as raw trimmed bytes;
the source applies `String::from_utf8_lossy`, which is the identity on
valid UTF-8. -/
def collectHeaders : List (List Nat) → List (List Nat) × Nat
  | [] => ([], 0)
  | seg :: rest =>
    if trim1 seg = [] then ([], contrib seg)
    else
      let p := collectHeaders rest
      (trim1 seg :: p.1, contrib seg + p.2)

/-- `request.rs`: the parsed `Request`.  `uri` and `query` hold the UTF-8
bytes of the corresponding strings. -/
structure Request where
  method : Method
  uri : List Nat
  query : Option (List Nat)
  version : Version
  header_lines : List (List Nat)
  body : List Nat
deriving DecidableEq, Repr

/-- Outcome of processing the target token (`request.rs` lines 90–134). -/
inductive TargetResult where
  | ok : List Nat → Option (List Nat) → TargetResult
  | failParsing
  | retryUtf8
deriving DecidableEq, Repr

/-- `request.rs` lines 90–134: handling of the target token.  An empty token
is a hard `Parsing` failure; a single leading `/` (47) is stripped; the
result must be valid UTF-8 (otherwise the parse loop `continue`s); the
string is split on `?` (63) — the first piece is the URI and the second
piece, when non-empty, the query.  Pieces after a second `?` are dropped by
the source's iterator use.  (The source's `None => continue` arm for the
first piece is unreachable, as `split` always yields a first piece;
`splitOn` never returns `[]`, so `headD`/`tail` are faithful.) -/
def parseTarget (u : List Nat) : TargetResult :=
  if u = [] then .failParsing
  else
    let u1 := if u.headD 0 = 47 then u.tail else u
    if validUtf8 u1 then
      let halves := splitOn 63 u1
      .ok (halves.headD [])
        (match halves.tail with
         | [] => none
         | q :: _ => if q.length > 0 then some q else none)
    else .retryUtf8

/-- Outcome of one parse attempt over the bytes buffered so far. -/
inductive AttemptResult where
  | done : Request → AttemptResult
  | fail : HpptError → AttemptResult
  | retry
  | panic
deriving DecidableEq, Repr

/-- `request.rs` `from_bytes`, the tail of a parse attempt once the
request-line is fully tokenized: collect the header lines (with their
`body_start` contribution), then take the body slice — a `body_start`
beyond the window is the source's out-of-range slice panic. -/
def afterVersion (m : Method) (uriParsed : List Nat) (queryParsed : Option (List Nat))
    (v : Version) (seg0 : List Nat) (restSegs : List (List Nat)) (bytes : List Nat) :
    AttemptResult :=
  let hp := collectHeaders restSegs
  let bodyStart := contrib seg0 + hp.2
  if bodyStart ≤ bytes.length then
    .done ⟨m, uriParsed, queryParsed, v, hp.1, bytes.drop bodyStart⟩
  else .panic

/-- `request.rs` `from_bytes`: the version token.  A missing token is a
`continue` (`retry`); a token other than `HTTP/1.1` returns
`UnsupportedHttpVersion` (the source's other-error arm is unreachable). -/
def afterTarget (m : Method) (uriParsed : List Nat) (queryParsed : Option (List Nat))
    (rest2 : List (List Nat)) (seg0 : List Nat) (restSegs : List (List Nat))
    (bytes : List Nat) : AttemptResult :=
  match rest2 with
  | [] => .retry
  | vtok :: _ =>
    match Version.from_bytes vtok with
    | .error .UnsupportedHttpVersion => .fail .UnsupportedHttpVersion
    | .error _ => .retry
    | .ok v => afterVersion m uriParsed queryParsed v seg0 restSegs bytes

/-- `request.rs` `from_bytes`: the target token.  A missing token is a
`continue`; an empty token is a hard `Parsing` failure; invalid UTF-8 is a
`continue`. -/
def afterMethod (m : Method) (rest1 : List (List Nat)) (seg0 : List Nat)
    (restSegs : List (List Nat)) (bytes : List Nat) : AttemptResult :=
  match rest1 with
  | [] => .retry
  | utok :: rest2 =>
    match parseTarget utok with
    | .failParsing => .fail .Parsing
    | .retryUtf8 => .retry
    | .ok uriParsed queryParsed =>
      afterTarget m uriParsed queryParsed rest2 seg0 restSegs bytes

/-- `request.rs` `from_bytes`, request-line tokenization for one buffered
window.  `seg0` is the raw first `\n`-segment, `restSegs` the remaining
segments, `bytes` the full buffered window.  `retry` models the source's
`continue` (read more bytes and reparse); an unrecognized method is a
`continue`. -/
def attemptLine (seg0 : List Nat) (restSegs : List (List Nat)) (bytes : List Nat) :
    AttemptResult :=
  match splitOn 32 (trim1 seg0) with
  | [] => .retry
  | mtok :: rest1 =>
    match Method.from_bytes mtok with
    | .error _ => .retry
    | .ok m => afterMethod m rest1 seg0 restSegs bytes

/-- `request.rs` `from_bytes`: one parse attempt over the buffered bytes —
split on `\n` (10), the first segment is the request line. -/
def attempt (bytes : List Nat) : AttemptResult :=
  match splitOn 10 bytes with
  | [] => .retry
  | seg0 :: restSegs => attemptLine seg0 restSegs bytes

/-- Result of `Request::from_bytes`: success, an `HpptError`, or a slice
panic (see `AttemptResult.panic`). -/
inductive ParseResult where
  | ok : Request → ParseResult
  | error : HpptError → ParseResult
  | panic
deriving DecidableEq, Repr

/-- `request.rs` `from_bytes`, the read loop.  The reader is modelled as the
list of byte chunks successive `read` calls deliver; once the list is
exhausted every further read returns zero bytes.  Each chunk is truncated to
the remaining buffer space.  Order of checks per iteration follows the
source: a full buffer is `RequestTooLarge`, a zero-byte read is
`BadRequest`, otherwise a parse attempt runs and a `continue` loops to read
more. -/
def fromBytesLoop (bufLen : Nat) : List (List Nat) → List Nat → ParseResult
  | [], acc =>
    if acc.length = bufLen then .error .RequestTooLarge
    else .error .BadRequest
  | c :: rest, acc =>
    let c1 := c.take (bufLen - acc.length)
    let acc1 := acc ++ c1
    if acc1.length = bufLen then .error .RequestTooLarge
    else if c1.length = 0 then .error .BadRequest
    else
      match attempt acc1 with
      | .done r => .ok r
      | .fail e => .error e
      | .panic => .panic
      | .retry => fromBytesLoop bufLen rest acc1

/-- `request.rs`: `Request::from_bytes(reader, buf)` with `buf` of length
`bufLen`, the reader delivering `chunks`. -/
def Request.from_bytes (chunks : List (List Nat)) (bufLen : Nat) : ParseResult :=
  fromBytesLoop bufLen chunks []

/-- `response.rs`: the `Status` enumeration. -/
inductive Status where
  | Ok
  | BadRequest
  | NotFound
  | RequestEntityTooLarge
  | InternalServerError
  | NotImplemented
  | HttpVersionNotSupported
deriving DecidableEq, Repr

/-- `response.rs`: `Response::status_line` — the fixed status-line bytes. -/
def Status.status_line : Status → List Nat
  | .Ok => ascii "HTTP/1.1 200 OK\r\n"
  | .BadRequest => ascii "HTTP/1.1 400 Bad Request\r\n"
  | .NotFound => ascii "HTTP/1.1 404 Not Found\r\n"
  | .RequestEntityTooLarge => ascii "HTTP/1.1 413 Request Entity Too Large\r\n"
  | .InternalServerError => ascii "HTTP/1.1 500 Internal Server Error\r\n"
  | .NotImplemented => ascii "HTTP/1.1 501 Not Implemented\r\n"
  | .HttpVersionNotSupported => ascii "HTTP/1.1 505 HTTP Version not supported\r\n"

/-- `response.rs`: the `ContentType` enumeration. -/
inductive ContentType where
  | Html | Text | Markdown | Pdf | Binary
deriving DecidableEq, Repr

/-- `response.rs`: `ContentType::from_path` — the extension after the last
`.` (46), looked up in the fixed suffix table; no dot (or an unknown
suffix, including the empty one) means `Binary`. -/
def ContentType.from_path (path : List Nat) : ContentType :=
  if 46 ∈ path then
    let ext := (path.reverse.takeWhile (fun b => b ≠ 46)).reverse
    if ext = ascii "htm" then .Html
    else if ext = ascii "html" then .Html
    else if ext = ascii "toml" then .Text
    else if ext = ascii "txt" then .Text
    else if ext = ascii "md" then .Markdown
    else if ext = ascii "pdf" then .Pdf
    else .Binary
  else .Binary

/-- `response.rs`: `ContentType::as_bytes`. -/
def ContentType.as_bytes : ContentType → List Nat
  | .Html => ascii "text/html"
  | .Text => ascii "text/plain"
  | .Pdf => ascii "application/pdf"
  | .Markdown => ascii "text/markdown"
  | .Binary => ascii "application/octet-stream"

/-- `response.rs`: `ResponseType` — a single `General` variant carrying the
optional body source (a `Read` stream, modelled by the bytes it yields) and
the optional content type. -/
inductive ResponseType where
  | general : Option (List Nat) → Option ContentType → ResponseType
deriving DecidableEq, Repr

/-- `response.rs`: the `Response` record of this iteration. -/
structure Response where
  status : Status
  response_type : ResponseType
deriving DecidableEq, Repr

/-- `response.rs`: `Response::send` — the exact bytes written to the target:
status line, `Content-Length` (the decimal length of the fully buffered
body, also when it is zero), the `Content-Type` header when present, a
blank line, then the body. -/
def Response.send (r : Response) : List Nat :=
  match r.response_type with
  | .general data contentType =>
    let contentBuf := data.getD []
    r.status.status_line
      ++ ascii "Content-Length: " ++ ascii (Nat.repr contentBuf.length) ++ [13, 10]
      ++ (match contentType with
          | some ct => ascii "Content-Type: " ++ ct.as_bytes ++ [13, 10]
          | none => [])
      ++ [13, 10]
      ++ contentBuf

/-- Modelled from the spec: the `Response` record `server.rs` constructs,
`Response::new(status, body, content_type, headers_included)`.  This
four-field form (§3 "Response", with the "body already contains its own
headers" flag) is referenced by `server.rs` but absent from the
`response.rs` iteration in the sources. -/
structure ResponseM where
  status : Status
  body : Option (List Nat)
  content_type : Option ContentType
  headers_included : Bool
deriving DecidableEq, Repr

/-- Modelled from the spec: the serializer honouring the "body already
contains its own headers" flag (§4.2) is absent from the `response.rs`
iteration in the sources.  Per §4.2/§4.4, when the flag is set the
subprocess output is forwarded right after the status line with no
`Content-Length`/`Content-Type` and no separate blank line (the body is
trusted to carry its own headers); when it is clear the assembly is exactly
that of `Response.send` above. -/
def ResponseM.send (r : ResponseM) : List Nat :=
  if r.headers_included then r.status.status_line ++ r.body.getD []
  else (Response.mk r.status (.general r.body r.content_type)).send

/-- Result of running a CGI subprocess (`Command::output()` in
`server.rs::build_cgi_response`): it spawned and exited with a success flag
and captured stdout, or it failed to spawn at all. -/
inductive CgiOutcome where
  | spawned : Bool → List Nat → CgiOutcome
  | spawnFailure
deriving DecidableEq, Repr

/-- `server.rs`: `build_cgi_response` — zero exit gives `Ok` with the
captured stdout as body, non-zero exit gives `BadRequest` with the stdout
still forwarded, a spawn failure gives `BadRequest` with no body.  The
first two set the "body already contains its own headers" flag. -/
def build_cgi_response : CgiOutcome → ResponseM
  | .spawned true out => ⟨.Ok, some out, none, true⟩
  | .spawned false out => ⟨.BadRequest, some out, none, true⟩
  | .spawnFailure => ⟨.BadRequest, none, none, false⟩

/-- A filesystem path as Rust's `Path` compares it: an absolute-or-relative
flag (`RootDir`) and the list of remaining components, each a byte string.
`PathBuf` equality is component-wise, which this representation mirrors. -/
structure FsPath where
  absolute : Bool
  components : List (List Nat)
deriving DecidableEq, Repr

/-- Rust `Path::join`: an absolute right-hand path replaces the left-hand
one entirely; otherwise the components are concatenated. -/
def FsPath.join (p q : FsPath) : FsPath :=
  if q.absolute then q else ⟨p.absolute, p.components ++ q.components⟩

/-- Rust `Path::new` on a UTF-8 string: split on `/` (47); empty segments
vanish; `.` segments vanish except a single leading one on a relative
path; a leading `/` makes the path absolute. -/
def uriToPath (uri : List Nat) : FsPath :=
  let rawSegs := (splitOn 47 uri).filter (fun s => s ≠ [])
  let isAbs := uri.headD 0 = 47
  let comps := rawSegs.filter (fun s => s ≠ ascii ".")
  if ¬ isAbs ∧ rawSegs.headD [] = ascii "." then ⟨isAbs, ascii "." :: comps⟩
  else ⟨isAbs, comps⟩

/-- A canonical path in the sense of `fs::canonicalize`: absolute with no
`.` or `..` components (symlink-freeness is not expressible here). -/
def FsPath.isCanonical (p : FsPath) : Bool :=
  p.absolute && p.components.all (fun c => c ≠ ascii ".." && c ≠ ascii ".")

/-- The filesystem, as the operations `files.rs::find_file_relative` asks of
it: `fs::canonicalize` (`none` is the `Err` case), `Path::exists`,
`Path::is_file`, and `File::open` (`none` is any I/O error; a success is
modelled by the file's contents). -/
structure Fs where
  canonicalize : FsPath → Option FsPath
  pathExists : FsPath → Bool
  isFile : FsPath → Bool
  openFile : FsPath → Option (List Nat)

/-- A filesystem whose `canonicalize` only ever returns canonical paths —
true of every real filesystem. -/
def WellFormedFs (fs : Fs) : Prop :=
  ∀ p c, fs.canonicalize p = some c → c.isCanonical = true

/-- `files.rs`: `find_file_relative` — join the root and the uri,
canonicalize (any error is `none`), reject a canonical form that differs
from the joined path, then require existence and regular-file-ness, and
fold any open error into `none`.  A success is the opened file, modelled by
its contents. -/
def find_file_relative (fs : Fs) (root_dir uri : FsPath) : Option (List Nat) :=
  let full_path := root_dir.join uri
  match fs.canonicalize full_path with
  | none => none
  | some canonical =>
    if canonical ≠ full_path then none
    else if fs.pathExists full_path then
      if fs.isFile full_path then fs.openFile full_path
      else none
    else none

/-- `server.rs`: the error-to-response mapping in `handle_request`.  The
source's `match` covers `UnsupportedHttpVersion`, `Parsing`, `IoError` and
`RequestTooLarge`; the sources disagree across iterations on the remaining
variants, so those two arms are modelled from the spec: §4.3 fails a
connection whose reader is exhausted early with `BadRequest` (400), and
`IncompleteRequest` is never surfaced by the parser iteration in `src`
(proved below), so its arm is unreachable; the spec's §7 table would have
it retried, never answered, so no status fits better than 400. -/
def errorResponse : HpptError → ResponseM
  | .UnsupportedHttpVersion => ⟨.HttpVersionNotSupported, none, none, false⟩
  | .Parsing => ⟨.BadRequest, none, none, false⟩
  | .IoError => ⟨.InternalServerError, none, none, false⟩
  | .RequestTooLarge => ⟨.RequestEntityTooLarge, none, none, false⟩
  | .BadRequest => ⟨.BadRequest, none, none, false⟩
  | .IncompleteRequest => ⟨.BadRequest, none, none, false⟩

/-- `server.rs`: `handle_request`.  The connection's bytes are `input`
(read to end-of-stream into a buffer of `bufLen` bytes; a filled buffer is
`RequestTooLarge`), then parsed; a GET is resolved against the filesystem,
with `cgi-bin`-prefixed URIs dispatched to the CGI gateway (`cgiRun` gives
the subprocess outcome for the resolved executable path); any other method
is `NotImplemented`.  `none` models the parser's slice panic, which aborts
the connection task without a response. -/
def handle_request (input : List Nat) (bufLen : Nat) (fs : Fs) (root_dir : FsPath)
    (cgiRun : FsPath → CgiOutcome) : Option ResponseM :=
  if bufLen ≤ input.length then some ⟨.RequestEntityTooLarge, none, none, false⟩
  else
    match Request.from_bytes [input] bufLen with
    | .panic => none
    | .error e => some (errorResponse e)
    | .ok req =>
      if req.method = .Get then
        let uriPath := uriToPath req.uri
        match find_file_relative fs root_dir uriPath with
        | some fileContents =>
          if List.isPrefixOf (ascii "cgi-bin") req.uri then
            some (build_cgi_response (cgiRun (root_dir.join uriPath)))
          else
            some ⟨.Ok, some fileContents, some (ContentType.from_path req.uri), false⟩
        | none => some ⟨.NotFound, none, none, false⟩
      else some ⟨.NotImplemented, none, none, false⟩

/-- The space-separated tokens of the request-line of a buffered window, as
`request.rs` computes them (split on `\n`, trim one trailing `\r`, split on
single spaces — empty tokens included). -/
def requestLineTokens (input : List Nat) : List (List Nat) :=
  splitOn 32 (trim1 ((splitOn 10 input).headD []))

/-- `/etc/passwd` as a path. -/
def etcPasswdPath : FsPath := ⟨true, [ascii "etc", ascii "passwd"]⟩

/-- Demo contents for `/etc/passwd`. -/
def passwdBytes : List Nat := ascii "root:x:0:0:root:/root:/bin/sh"

/-- A demo absolute server root, `/srv/www`. -/
def rootDemo : FsPath := ⟨true, [ascii "srv", ascii "www"]⟩

/-- A demo relative server root, `srv`. -/
def rootRel : FsPath := ⟨false, [ascii "srv"]⟩

/-- A demo filesystem: exactly one regular file, `/etc/passwd`, which is
its own canonical form; everything else fails to canonicalize. -/
def fsDemo : Fs where
  canonicalize := fun p => if p = etcPasswdPath then some etcPasswdPath else none
  pathExists := fun p => decide (p = etcPasswdPath)
  isFile := fun p => decide (p = etcPasswdPath)
  openFile := fun p => if p = etcPasswdPath then some passwdBytes else none

/-- A demo CGI runner that always fails to spawn. -/
def cgiDemo : FsPath → CgiOutcome := fun _ => .spawnFailure

theorem fsDemo_wellFormed : WellFormedFs fsDemo := by
  intro p c h
  simp only [fsDemo] at h
  split at h
  · cases h
    decide
  · cases h

/-- C2: serialization of a `General` (no CGI flag) response, for every
status, optional body stream and optional content type, produces exactly
the fixed status line, a `Content-Length` header whose value is the decimal
byte length of the fully buffered body (also when zero), a `Content-Type`
header only when a content type is present (so `Content-Length` always
precedes `Content-Type`), a blank line, and the body bytes; grounded on the
three wire examples from the source's unit tests. -/
theorem c2_response_serialization :
    (∀ (status : Status) (data : Option (List Nat)) (ct : Option ContentType),
      (Response.mk status (.general data ct)).send =
        status.status_line
          ++ ascii "Content-Length: " ++ ascii (Nat.repr (data.getD []).length) ++ [13, 10]
          ++ (match ct with
              | some c => ascii "Content-Type: " ++ c.as_bytes ++ [13, 10]
              | none => [])
          ++ [13, 10] ++ data.getD []) ∧
    (Response.mk .Ok (.general none (some .Text))).send =
      ascii "HTTP/1.1 200 OK\r\nContent-Length: 0\r\nContent-Type: text/plain\r\n\r\n" ∧
    (Response.mk .Ok (.general (some (ascii "ABCDEFGHIJK1234567890")) (some .Text))).send =
      ascii "HTTP/1.1 200 OK\r\nContent-Length: 21\r\nContent-Type: text/plain\r\n\r\nABCDEFGHIJK1234567890" ∧
    (Response.mk .NotFound (.general none none)).send =
      ascii "HTTP/1.1 404 Not Found\r\nContent-Length: 0\r\n\r\n" :=
  ⟨fun _ _ _ => rfl, by decide, by decide, by decide⟩

/-- C6: the CGI exit-status mapping — a zero exit yields `Ok` (the 200
status line) with the captured stdout as body, a non-zero exit yields
`BadRequest` (400) with the stdout still forwarded, and a spawn failure
yields `BadRequest` with no body. -/
theorem c6_cgi_exit_mapping :
    (∀ out : List Nat,
      build_cgi_response (.spawned true out) = ⟨.Ok, some out, none, true⟩) ∧
    (∀ out : List Nat,
      build_cgi_response (.spawned false out) = ⟨.BadRequest, some out, none, true⟩) ∧
    build_cgi_response .spawnFailure = ⟨.BadRequest, none, none, false⟩ ∧
    Status.Ok.status_line = ascii "HTTP/1.1 200 OK\r\n" ∧
    Status.BadRequest.status_line = ascii "HTTP/1.1 400 Bad Request\r\n" :=
  ⟨fun _ => rfl, fun _ => rfl, rfl, rfl, rfl⟩

/-- C7: every response built from a spawned CGI subprocess has the "body
already contains its own headers" flag set, and serializing any response
with that flag set injects no `Content-Length` and no `Content-Type` — the
body is forwarded unmodified right after the status line. -/
theorem c7_cgi_header_suppression :
    (∀ (success : Bool) (out : List Nat),
      (build_cgi_response (.spawned success out)).headers_included = true) ∧
    (∀ r : ResponseM, r.headers_included = true →
      r.send = r.status.status_line ++ r.body.getD []) ∧
    (∀ (success : Bool) (out : List Nat),
      (build_cgi_response (.spawned success out)).send =
        (build_cgi_response (.spawned success out)).status.status_line ++ out) := by
  refine ⟨fun success out => ?_, fun r h => ?_, fun success out => ?_⟩
  · cases success <;> rfl
  · simp only [ResponseM.send, h, if_pos]
  · cases success <;> rfl

theorem c7_witness :
    (ResponseM.mk .Ok (some (ascii "Content-Type: text/plain\r\n\r\nnum=5")) none true).send =
      ascii "HTTP/1.1 200 OK\r\nContent-Type: text/plain\r\n\r\nnum=5" := by
  have h := c7_cgi_header_suppression.2.1
    (ResponseM.mk .Ok (some (ascii "Content-Type: text/plain\r\n\r\nnum=5")) none true) rfl
  simpa using h

/-- C9 (code evaluated at the failing input): with bare `\n` line
terminators the parsed body includes the `\n` byte that terminated the
header-ending empty line — the source's `body_start` bookkeeping adds
nothing for empty segments even though their `\n` separator was consumed —
where the claim (and the accepted `\r\n` form) put the body right after
the empty line. -/
theorem c9_bare_newline_body :
    Request.from_bytes [ascii "GET / HTTP/1.1\n\nBODY"] 1024 =
      .ok ⟨.Get, [], none, .OneDotOne, [], ascii "\nBODY"⟩ ∧
    ascii "\nBODY" ≠ ascii "BODY" ∧
    Request.from_bytes [ascii "GET / HTTP/1.1\r\n\r\nBODY"] 1024 =
      .ok ⟨.Get, [], none, .OneDotOne, [], ascii "BODY"⟩ :=
  ⟨by decide, by decide, by decide⟩

/-- C4: the version token accepts exactly the literal `HTTP/1.1`; every
other token (including `HTTP/1.0`-like well-formed ones) fails with
`UnsupportedHttpVersion`, an error distinct from `Parsing`; and a request
whose parse fails that way is answered with the 505 status. -/
theorem c4_version_handling :
    Version.from_bytes (ascii "HTTP/1.1") = .ok .OneDotOne ∧
    (∀ v : List Nat, v ≠ ascii "HTTP/1.1" →
      Version.from_bytes v = .error .UnsupportedHttpVersion) ∧
    HpptError.UnsupportedHttpVersion ≠ HpptError.Parsing ∧
    (∀ (input : List Nat) (bufLen : Nat) (fs : Fs) (root : FsPath)
        (cg : FsPath → CgiOutcome),
      input.length < bufLen →
      Request.from_bytes [input] bufLen = .error .UnsupportedHttpVersion →
      handle_request input bufLen fs root cg =
        some ⟨.HttpVersionNotSupported, none, none, false⟩) := by
  refine ⟨rfl, fun v hv => ?_, by decide, fun input bufLen fs root cg hlen hparse => ?_⟩
  · simp only [Version.from_bytes, if_neg hv]
  · simp only [handle_request, if_neg (Nat.not_le.mpr hlen), hparse]
    rfl

theorem c4_witness :
    Version.from_bytes (ascii "HTTP/1.0") = .error .UnsupportedHttpVersion ∧
    handle_request (ascii "GET / HTTP/1.0\r\n\r\n") 1024 fsDemo rootDemo cgiDemo =
      some ⟨.HttpVersionNotSupported, none, none, false⟩ :=
  ⟨c4_version_handling.2.1 (ascii "HTTP/1.0") (by decide),
   c4_version_handling.2.2.2 (ascii "GET / HTTP/1.0\r\n\r\n") 1024 fsDemo rootDemo cgiDemo
     (by decide) (by decide)⟩

/-- C1 (amended): `find_file_relative` yields a file only when the joined
path canonicalizes to exactly itself, exists, is a regular file and opens
without error (so every failure of any of these is "not found"); and on a
filesystem whose canonicalization only returns canonical paths, a uri
containing a `..` component never yields file contents.  (The claim's
stronger "any escape of the root never yields contents" is refuted by
`c1_counterexample`: an absolute uri — a target beginning `//` — makes
`join` discard the root.) -/
theorem c1_file_resolution (fs : Fs) (root uri : FsPath) (hwf : WellFormedFs fs) :
    (∀ f, find_file_relative fs root uri = some f →
      fs.canonicalize (root.join uri) = some (root.join uri) ∧
      fs.pathExists (root.join uri) = true ∧
      fs.isFile (root.join uri) = true ∧
      fs.openFile (root.join uri) = some f) ∧
    (ascii ".." ∈ uri.components → find_file_relative fs root uri = none) := by
  constructor
  · intro f h
    simp only [find_file_relative] at h
    split at h
    · cases h
    · rename_i canonical hc
      by_cases heq : canonical = root.join uri
      · subst heq
        rw [if_neg (fun hh => hh rfl)] at h
        by_cases hex : fs.pathExists (root.join uri) = true
        · rw [if_pos hex] at h
          by_cases hf : fs.isFile (root.join uri) = true
          · rw [if_pos hf] at h
            exact ⟨hc, hex, hf, h⟩
          · rw [if_neg hf] at h; cases h
        · rw [if_neg hex] at h; cases h
      · rw [if_pos heq] at h; cases h
  · intro hdd
    have hjoin : ascii ".." ∈ (root.join uri).components := by
      unfold FsPath.join
      by_cases habs : uri.absolute
      · simp [habs, hdd]
      · simp only [habs, Bool.false_eq_true, if_false]
        exact List.mem_append_right _ hdd
    simp only [find_file_relative]
    split
    · rfl
    · rename_i canonical hc
      have hcanon := hwf _ _ hc
      have hne : canonical ≠ root.join uri := by
        intro heq
        subst heq
        unfold FsPath.isCanonical at hcanon
        have hall := (Bool.and_elim_right hcanon)
        rw [List.all_eq_true] at hall
        have h2 := hall _ hjoin
        simp at h2
      rw [if_pos hne]

theorem c1_witness :
    find_file_relative fsDemo rootDemo ⟨false, [ascii "..", ascii "etc", ascii "passwd"]⟩ = none :=
  (c1_file_resolution fsDemo rootDemo ⟨false, [ascii "..", ascii "etc", ascii "passwd"]⟩
    fsDemo_wellFormed).2 (by decide)

/-- C1 counterexample: on a well-formed filesystem, a uri that is itself
absolute (as produced by a request target beginning `//`, since the parser
strips exactly one leading `/`) joins to a path outside the configured
root, passes the canonical-form check, and yields the file's contents —
so "a resolved path escaping the root never yields file contents" is false
as stated. -/
theorem c1_counterexample :
    find_file_relative fsDemo rootDemo etcPasswdPath = some passwdBytes ∧
    fsDemo.canonicalize (rootDemo.join etcPasswdPath) = some (rootDemo.join etcPasswdPath) ∧
    List.isPrefixOf rootDemo.components etcPasswdPath.components = false ∧
    uriToPath (ascii "/etc/passwd") = etcPasswdPath ∧
    WellFormedFs fsDemo :=
  ⟨by decide, by decide, by decide, by decide, fsDemo_wellFormed⟩

/-- C10 (amended): on a well-formed filesystem, `find_file_relative`
returns `none` whenever the joined path is not in canonical form
(syntactically: relative, or containing a `.`/`..` component) and whenever
canonicalization does not return exactly the joined path (which covers a
symlinked component); in particular a relative root makes every lookup
with a *relative* uri fail.  (The claim's "every lookup fails" is refuted
by `c10_counterexample`: an absolute uri replaces the root in `join`.) -/
theorem c10_canonical_form_requirement (fs : Fs) (root uri : FsPath)
    (hwf : WellFormedFs fs) :
    ((root.join uri).isCanonical = false → find_file_relative fs root uri = none) ∧
    (fs.canonicalize (root.join uri) ≠ some (root.join uri) →
      find_file_relative fs root uri = none) ∧
    (root.absolute = false → uri.absolute = false →
      find_file_relative fs root uri = none) := by
  have hmain : (root.join uri).isCanonical = false → find_file_relative fs root uri = none := by
    intro hnc
    simp only [find_file_relative]
    split
    · rfl
    · rename_i canonical hc
      have hcanon := hwf _ _ hc
      have hne : canonical ≠ root.join uri := by
        intro heq
        rw [heq, hnc] at hcanon
        cases hcanon
      rw [if_pos hne]
  refine ⟨hmain, fun hne => ?_, fun hroot huri => ?_⟩
  · simp only [find_file_relative]
    split
    · rfl
    · rename_i canonical hc
      have hne2 : canonical ≠ root.join uri := fun heq => hne (by rw [hc, heq])
      rw [if_pos hne2]
  · apply hmain
    unfold FsPath.isCanonical FsPath.join
    simp [huri, hroot]

theorem c10_witness :
    find_file_relative fsDemo rootRel ⟨false, [ascii "index.html"]⟩ = none :=
  (c10_canonical_form_requirement fsDemo rootRel ⟨false, [ascii "index.html"]⟩
    fsDemo_wellFormed).2.2 (by decide) (by decide)

/-- C10 counterexample: with a relative root a lookup can still succeed —
an absolute uri makes `join` discard the root, so the joined path can
equal its canonical form and the file is served; "every lookup fails when
the root is relative" is false as stated. -/
theorem c10_counterexample :
    find_file_relative fsDemo rootRel etcPasswdPath = some passwdBytes ∧
    rootRel.absolute = false ∧
    WellFormedFs fsDemo :=
  ⟨by decide, by decide, fsDemo_wellFormed⟩

theorem parseTarget_ne_fail (u : List Nat) (h : u ≠ []) :
    parseTarget u ≠ .failParsing := by
  intro hc
  simp only [parseTarget, if_neg h] at hc
  split at hc <;> split at hc <;> simp at hc

theorem attempt_retry (input : List Nat)
    (htok : (requestLineTokens input).length < 3)
    (hsecond : (requestLineTokens input).getD 1 [0] ≠ []) :
    attempt input = .retry := by
  unfold attempt
  split
  · rfl
  · rename_i seg0 restSegs hs
    have htoks : requestLineTokens input = splitOn 32 (trim1 seg0) := by
      unfold requestLineTokens
      rw [hs]
      rfl
    rw [htoks] at htok hsecond
    unfold attemptLine
    split
    · rfl
    · rename_i mtok rest1 htk
      rw [htk] at htok hsecond
      split
      · rfl
      · rename_i m hm
        cases rest1 with
        | nil => rfl
        | cons utok rest2 =>
          have hu : utok ≠ [] := by simpa using hsecond
          cases rest2 with
          | cons vtok rest3 =>
            exfalso
            simp only [List.length_cons] at htok
            omega
          | nil =>
            simp only [afterMethod]
            cases hpt : parseTarget utok with
            | failParsing => exact absurd hpt (parseTarget_ne_fail utok hu)
            | retryUtf8 => rfl
            | ok a b => rfl

/-- C5 (amended): an input whose request-line has fewer than three
space-separated tokens (or no request-line at all) makes the parser loop
for more bytes rather than fail with `Parsing`; once the reader is
exhausted the result is the `BadRequest` error — `IncompleteRequest` is
never surfaced by this parser iteration.  (The guard on the second token
excludes the present-but-empty target token, which is a hard `Parsing`
failure in the source.) -/
theorem c5_fewer_tokens_bad_request (input : List Nat) (bufLen : Nat)
    (hlen : input.length < bufLen)
    (htok : (requestLineTokens input).length < 3)
    (hsecond : (requestLineTokens input).getD 1 [0] ≠ []) :
    Request.from_bytes [input] bufLen = .error .BadRequest ∧
    Request.from_bytes [input] bufLen ≠ .error .IncompleteRequest := by
  have hbr : Request.from_bytes [input] bufLen = .error .BadRequest := by
    by_cases hinput : input = []
    · subst hinput
      have hb : 0 ≠ bufLen := Nat.ne_of_lt (by simpa using hlen)
      simp [Request.from_bytes, fromBytesLoop, hb]
    · have h1 : List.take bufLen input = input := List.take_of_length_le (Nat.le_of_lt hlen)
      have h2 : input.length ≠ bufLen := Nat.ne_of_lt hlen
      have h3 : input.length ≠ 0 := fun h0 => hinput (List.eq_nil_of_length_eq_zero h0)
      simp only [Request.from_bytes, fromBytesLoop, List.length_nil, Nat.sub_zero,
        List.nil_append, h1]
      rw [if_neg h2, if_neg h3, attempt_retry input htok hsecond]
      show fromBytesLoop bufLen [] input = .error .BadRequest
      simp only [fromBytesLoop]
      rw [if_neg h2]
  refine ⟨hbr, ?_⟩
  rw [hbr]
  simp

theorem c5_witness :
    Request.from_bytes [ascii "GET /p\r\n\r\n"] 1024 = .error .BadRequest ∧
    Request.from_bytes [ascii "GET /p\r\n\r\n"] 1024 ≠ .error .IncompleteRequest :=
  c5_fewer_tokens_bad_request (ascii "GET /p\r\n\r\n") 1024 (by decide) (by decide) (by decide)

/-- C5 counterexample: an input with no request-line at all (only blank
lines) parses to `BadRequest`, not to the `IncompleteRequest` the claim
states. -/
theorem c5_counterexample :
    Request.from_bytes [ascii "\r\n\r\n"] 1024 ≠ .error .IncompleteRequest ∧
    Request.from_bytes [ascii "\r\n\r\n"] 1024 = .error .BadRequest :=
  ⟨by decide, by decide⟩

theorem parseTarget_eq_ok (u : List Nat) (h1 : u ≠ [])
    (h2 : validUtf8 (if u.headD 0 = 47 then u.tail else u) = true) :
    parseTarget u =
      .ok ((splitOn 63 (if u.headD 0 = 47 then u.tail else u)).headD [])
        (match (splitOn 63 (if u.headD 0 = 47 then u.tail else u)).tail with
         | [] => none
         | q :: _ => if q.length > 0 then some q else none) := by
  simp only [parseTarget, if_neg h1, h2, if_true]

/-- C3 (amended): for a non-empty, valid-UTF-8 target token, the token
(after stripping one leading `/`) is split on `?`; the first piece becomes
the URI and the second piece, when non-empty, becomes the query — pieces
after a second `?` are discarded, and an empty second piece collapses to
"no query", never to an empty string; grounded on the spec's two concrete
requests. -/
theorem c3_query_splitting :
    (∀ u : List Nat, u ≠ [] →
      validUtf8 (if u.headD 0 = 47 then u.tail else u) = true →
      parseTarget u =
        .ok ((splitOn 63 (if u.headD 0 = 47 then u.tail else u)).headD [])
          (match (splitOn 63 (if u.headD 0 = 47 then u.tail else u)).tail with
           | [] => none
           | q :: _ => if q.length > 0 then some q else none)) ∧
    Request.from_bytes [ascii "GET /p?k=v HTTP/1.1\r\n\r\n"] 1024 =
      .ok ⟨.Get, ascii "p", some (ascii "k=v"), .OneDotOne, [], []⟩ ∧
    Request.from_bytes [ascii "GET /p? HTTP/1.1\r\n\r\n"] 1024 =
      .ok ⟨.Get, ascii "p", none, .OneDotOne, [], []⟩ :=
  ⟨fun u h1 h2 => parseTarget_eq_ok u h1 h2, by decide, by decide⟩

theorem c3_witness :
    parseTarget (ascii "/p?k=v") = .ok (ascii "p") (some (ascii "k=v")) := by
  rw [c3_query_splitting.1 (ascii "/p?k=v") (by decide) (by decide)]
  decide

/-- C3 counterexample: for the target `/p?a?b` the source keeps only the
piece between the first and second `?` as the query — `Some("a")`, not the
full right half `Some("a?b")` the claim states. -/
theorem c3_counterexample :
    Request.from_bytes [ascii "GET /p?a?b HTTP/1.1\r\n\r\n"] 1024 =
      .ok ⟨.Get, ascii "p", some (ascii "a"), .OneDotOne, [], []⟩ ∧
    some (ascii "a") ≠ some (ascii "a?b") :=
  ⟨by decide, by decide⟩

theorem method_as_bytes_ok (m : Method) : Method.from_bytes m.as_bytes = .ok m := by
  cases m <;> rfl

theorem method_as_bytes_ne (m : Method) : ∀ b ∈ m.as_bytes, b ≠ 32 ∧ b ≠ 10 := by
  cases m <;> decide

theorem fromBytes_single_done (input : List Nat) (bufLen : Nat)
    (hlen : input.length < bufLen) (hne : input ≠ []) (r : Request)
    (hatt : attempt input = .done r) :
    Request.from_bytes [input] bufLen = .ok r := by
  have h1 : List.take bufLen input = input := List.take_of_length_le (Nat.le_of_lt hlen)
  have h2 : input.length ≠ bufLen := Nat.ne_of_lt hlen
  have h3 : input.length ≠ 0 := fun h0 => hne (List.eq_nil_of_length_eq_zero h0)
  simp only [Request.from_bytes, fromBytesLoop, List.length_nil, Nat.sub_zero,
    List.nil_append, h1]
  rw [if_neg h2, if_neg h3, hatt]

/-- A parse attempt on a well-formed request `M SP t SP HTTP/1.1 CRLF CRLF`
(method literal, space-and-newline-free target, supported version, no
headers, no body) succeeds with the method and version as given, empty
header list and empty body. -/
theorem attempt_three_tokens (m : Method) (t : List Nat)
    (ht_ne : t ≠ [])
    (ht_sp : ∀ b ∈ t, b ≠ 32)
    (ht_nl : ∀ b ∈ t, b ≠ 10)
    (ht_utf8 : validUtf8 (if t.headD 0 = 47 then t.tail else t) = true) :
    ∃ u q, attempt (m.as_bytes ++ 32 :: t ++ 32 :: ascii "HTTP/1.1" ++ [13, 10, 13, 10]) =
      .done ⟨m, u, q, .OneDotOne, [], []⟩ := by
  have hM := method_as_bytes_ne m
  have hinput : m.as_bytes ++ 32 :: t ++ 32 :: ascii "HTTP/1.1" ++ [13, 10, 13, 10]
      = (m.as_bytes ++ 32 :: (t ++ 32 :: (ascii "HTTP/1.1" ++ [13]))) ++ 10 :: [13, 10] := by
    simp [List.cons_append, List.append_assoc]
  have hAB : m.as_bytes ++ 32 :: (t ++ 32 :: (ascii "HTTP/1.1" ++ [13]))
      = (m.as_bytes ++ 32 :: (t ++ 32 :: ascii "HTTP/1.1")) ++ [13] := by
    simp [List.cons_append, List.append_assoc]
  have hA10 : ∀ b ∈ m.as_bytes ++ 32 :: (t ++ 32 :: (ascii "HTTP/1.1" ++ [13])), b ≠ 10 := by
    rw [List.forall_mem_append]
    refine ⟨fun b hb => (hM b hb).2, ?_⟩
    rw [List.forall_mem_cons]
    refine ⟨by decide, ?_⟩
    rw [List.forall_mem_append]
    exact ⟨ht_nl, by decide⟩
  have hsegs : splitOn 10 (m.as_bytes ++ 32 :: t ++ 32 :: ascii "HTTP/1.1" ++ [13, 10, 13, 10])
      = (m.as_bytes ++ 32 :: (t ++ 32 :: (ascii "HTTP/1.1" ++ [13]))) :: [[13], []] := by
    rw [hinput, splitOn_append 10 _ _ hA10]
    rfl
  have htrim : trim1 (m.as_bytes ++ 32 :: (t ++ 32 :: (ascii "HTTP/1.1" ++ [13])))
      = m.as_bytes ++ 32 :: (t ++ 32 :: ascii "HTTP/1.1") := by
    rw [hAB]
    unfold trim1
    rw [if_neg (by simp), if_pos (by rw [List.getLast?_concat]), List.dropLast_concat]
  have htokens : splitOn 32 (m.as_bytes ++ 32 :: (t ++ 32 :: ascii "HTTP/1.1"))
      = [m.as_bytes, t, ascii "HTTP/1.1"] := by
    rw [splitOn_append 32 _ _ (fun b hb => (hM b hb).1),
      splitOn_append 32 _ _ ht_sp, splitOn_sep_free 32 _ (by decide)]
  have hheads : collectHeaders [[13], []] = ([], 2) := rfl
  have hAne : m.as_bytes ++ 32 :: (t ++ 32 :: (ascii "HTTP/1.1" ++ [13])) ≠ [] := by
    rw [hAB]; simp
  have hcontrib : contrib (m.as_bytes ++ 32 :: (t ++ 32 :: (ascii "HTTP/1.1" ++ [13])))
      = (m.as_bytes ++ 32 :: (t ++ 32 :: (ascii "HTTP/1.1" ++ [13]))).length + 1 := by
    unfold contrib
    rw [if_neg hAne]
  have hlen3 : (m.as_bytes ++ 32 :: t ++ 32 :: ascii "HTTP/1.1" ++ [13, 10, 13, 10]).length
      = (m.as_bytes ++ 32 :: (t ++ 32 :: (ascii "HTTP/1.1" ++ [13]))).length + 3 := by
    rw [hinput]
    simp only [List.length_append, List.length_cons, List.length_nil]
  obtain ⟨u, q, hpt⟩ : ∃ u q, parseTarget t = .ok u q :=
    ⟨_, _, parseTarget_eq_ok t ht_ne ht_utf8⟩
  refine ⟨u, q, ?_⟩
  unfold attempt
  rw [hsegs]
  show attemptLine _ _ _ = _
  unfold attemptLine
  rw [htrim, htokens]
  show (match Method.from_bytes m.as_bytes with
        | .error _ => AttemptResult.retry
        | .ok m1 => afterMethod m1 [t, ascii "HTTP/1.1"] _ _ _) = _
  rw [method_as_bytes_ok m]
  show afterMethod m [t, ascii "HTTP/1.1"] _ _ _ = _
  simp only [afterMethod]
  rw [hpt]
  show afterTarget m u q [ascii "HTTP/1.1"] _ _ _ = _
  simp only [afterTarget]
  rw [show Version.from_bytes (ascii "HTTP/1.1") = .ok .OneDotOne from rfl]
  show afterVersion m u q .OneDotOne _ _ _ = _
  simp only [afterVersion, hheads]
  simp only [hcontrib]
  rw [if_pos (by omega)]
  have hdrop : (m.as_bytes ++ 32 :: t ++ 32 :: ascii "HTTP/1.1" ++ [13, 10, 13, 10]).drop
      ((m.as_bytes ++ 32 :: (t ++ 32 :: (ascii "HTTP/1.1" ++ [13]))).length + 1 + 2) = [] :=
    List.drop_eq_nil_of_le (by omega)
  rw [hdrop]

/-- C8: every well-formed request `METHOD /path HTTP/1.1\r\n\r\n` whose
method is a supported literal other than GET is answered with
`NotImplemented` (501) and no body, whose serialization carries
`Content-Length: 0` and an empty body. -/
theorem c8_non_get_routing (m : Method) (t : List Nat) (bufLen : Nat)
    (fs : Fs) (root : FsPath) (cg : FsPath → CgiOutcome)
    (hm : m ≠ .Get)
    (ht_ne : t ≠ [])
    (ht_sp : ∀ b ∈ t, b ≠ 32)
    (ht_nl : ∀ b ∈ t, b ≠ 10)
    (ht_utf8 : validUtf8 (if t.headD 0 = 47 then t.tail else t) = true)
    (hlen : (m.as_bytes ++ 32 :: t ++ 32 :: ascii "HTTP/1.1" ++ [13, 10, 13, 10]).length
      < bufLen) :
    handle_request (m.as_bytes ++ 32 :: t ++ 32 :: ascii "HTTP/1.1" ++ [13, 10, 13, 10])
        bufLen fs root cg = some ⟨.NotImplemented, none, none, false⟩ ∧
    (ResponseM.mk .NotImplemented none none false).send =
      ascii "HTTP/1.1 501 Not Implemented\r\nContent-Length: 0\r\n\r\n" := by
  obtain ⟨u, q, hatt⟩ := attempt_three_tokens m t ht_ne ht_sp ht_nl ht_utf8
  have hne : m.as_bytes ++ 32 :: t ++ 32 :: ascii "HTTP/1.1" ++ [13, 10, 13, 10] ≠ [] := by
    apply List.ne_nil_of_length_pos
    simp only [List.length_append, List.length_cons]
    omega
  have hparse := fromBytes_single_done _ bufLen hlen hne _ hatt
  refine ⟨?_, by decide⟩
  simp only [handle_request, if_neg (Nat.not_le.mpr hlen), hparse, if_neg hm]

theorem c8_witness :
    handle_request (ascii "POST /path HTTP/1.1\r\n\r\n") 1024 fsDemo rootDemo cgiDemo =
      some ⟨.NotImplemented, none, none, false⟩ :=
  (c8_non_get_routing .Post (ascii "/path") 1024 fsDemo rootDemo cgiDemo
    (by decide) (by decide) (by decide) (by decide) (by decide) (by decide)).1

end Hppt
